import Mathlib

/-!
Verification of the CommitmentTracker enrichment job and CRUD service.

The development shallowly embeds the two relevant Python modules:

* `lambda_src/index.py` — the enrichment Lambda `handler`: it scans the
  goals table (one `scan` call, first page only), and for each scanned
  goal builds a prompt, calls the text-generation service, and issues a
  field-level `update_item` setting `MotivationalMessage` and
  `LastEncouragementDate`.  The Python code has no `try`/`except`, so an
  exception from the generation call propagates out of the handler; the
  table writes performed before the exception persist.  DynamoDB's
  `update_item` without a condition expression is an upsert: on a missing
  key it creates a fresh item holding only the key and the SET attributes.

* `web_app.py` — the Flask CRUD service; `add_goal` derives the GoalID
  from the creation timestamp formatted to second precision and stores
  the record with `put_item` (full upsert, silently replacing any item
  with the same key).

Items are modelled as association lists from attribute names to values,
the table as a list of items together with an optional page limit
modelling DynamoDB scan pagination (the Python code reads only
`response['Items']`, i.e. the first page).  Exceptions are modelled by an
outcome type that also carries the table state reached when the exception
propagated, since DynamoDB writes already issued are durable.
-/

/-- A DynamoDB attribute value: string or number (the only kinds the
CommitmentTracker code stores). -/
inductive AttrVal where
  | s (v : String)
  | n (v : Int)
deriving Repr, DecidableEq

/-- A stored item: an association list from attribute names to values. -/
abbrev Item := List (String × AttrVal)

/-- Attribute lookup on an item (Python `goal.get(k)` / `goal[k]`). -/
def lookupAttr (it : Item) (k : String) : Option AttrVal :=
  it.lookup k

/-- Set attribute `k` to `v` on an item: replace the first binding of `k`,
or append the binding when `k` is absent — the semantics of a DynamoDB
`SET k = v` update-expression clause on an attribute map. -/
def setAttr : Item → String → AttrVal → Item
  | [], k, v => [(k, v)]
  | (k', v') :: rest, k, v =>
    if k' == k then (k, v) :: rest
    else (k', v') :: setAttr rest k v

/-- Python `str()` / f-string rendering of an attribute value. -/
def attrToStr : AttrVal → String
  | .s v => v
  | .n v => toString v

/-- `goal.get(k, dflt)` as used in the handler's f-string: the stored
value rendered to a string, or the default when the attribute is absent. -/
def getS (it : Item) (k dflt : String) : String :=
  match lookupAttr it k with
  | some v => attrToStr v
  | none => dflt

/-- The exact prompt template built by the handler's f-string. -/
def mkPrompt (goal_name target_date progress_details : String) : String :=
  "Generate a short, personalized motivational message for this goal:\n\nGoal: "
    ++ goal_name
    ++ "\nTarget Date: " ++ target_date
    ++ "\nProgress: " ++ progress_details
    ++ "\n\nKeep the message encouraging and under 100 words."

/-- The prompt the handler builds for a scanned goal, with the source's
defaults for absent attributes. -/
def promptOf (goal : Item) : String :=
  mkPrompt (getS goal "GoalName" "Unknown")
    (getS goal "TargetDate" "Not set")
    (getS goal "ProgressDetails" "No details")

/-- The effect of the handler's update-expression
`SET MotivationalMessage = :msg, LastEncouragementDate = :date` on an
existing item. -/
def enrichItem (it : Item) (msg date : String) : Item :=
  setAttr (setAttr it "MotivationalMessage" (AttrVal.s msg))
    "LastEncouragementDate" (AttrVal.s date)

/-- The item DynamoDB creates when `update_item` is issued against a key
that is not present (upsert semantics): only the key and the SET
attributes. -/
def freshItem (key : AttrVal) (msg date : String) : Item :=
  [("GoalID", key),
   ("MotivationalMessage", AttrVal.s msg),
   ("LastEncouragementDate", AttrVal.s date)]

/-- Whether an item is the one addressed by `Key={'GoalID': key}`. -/
def itemKeyMatches (it : Item) (key : AttrVal) : Bool :=
  lookupAttr it "GoalID" == some key

/-- DynamoDB `update_item(Key={'GoalID': key}, SET MotivationalMessage,
LastEncouragementDate)`: field-level update of the addressed item when it
exists, creation of a fresh item otherwise. -/
def updateItem (items : List Item) (key : AttrVal) (msg date : String) : List Item :=
  if items.any (fun it => itemKeyMatches it key) then
    items.map (fun it => if itemKeyMatches it key then enrichItem it msg date else it)
  else
    items ++ [freshItem key msg date]

/-- The goals table: the stored items plus the scan page size of the
underlying store (`none` models a store whose scan returns everything in
one page). -/
structure Table where
  items : List Item
  pageLimit : Option Nat
deriving Repr, DecidableEq

/-- `table.scan()['Items']`: the first page of the scan.  The Python
handler performs a single `scan` call and never follows
`LastEvaluatedKey`, so this is the whole list the loop iterates over. -/
def scanItems (t : Table) : List Item :=
  match t.pageLimit with
  | none => t.items
  | some n => t.items.take n

/-- A Python exception escaping the handler's loop body. -/
inductive JobError where
  | generationError (msg : String)
  | keyError (key : String)
deriving Repr, DecidableEq

/-- Outcome of the per-goal loop: normal completion with the final table
items and the processed counter, or an uncaught exception.  The `failed`
constructor carries the items as of the moment the exception propagated,
because the DynamoDB writes already issued persist. -/
inductive LoopOutcome where
  | done (items : List Item) (processed : Nat)
  | failed (items : List Item) (e : JobError)
deriving Repr, DecidableEq

/-- The handler's `for goal in goals` loop.  For each goal of the
snapshot: build the prompt (with defaults), call the generation service
(`gen`), read `goal['GoalID']`, issue the two-field `update_item`, and
increment `processed`.  There is no `try`/`except` in the source, so a
generation failure (or a missing `GoalID` key) aborts the loop with the
exception. -/
def processGoals (gen : String → Except String String) (now : String) :
    List Item → List Item → Nat → LoopOutcome
  | [], items, n => .done items n
  | goal :: rest, items, n =>
    match gen (promptOf goal) with
    | .error m => .failed items (.generationError m)
    | .ok msg =>
      match lookupAttr goal "GoalID" with
      | none => .failed items (.keyError "GoalID")
      | some key =>
        processGoals gen now rest (updateItem items key msg now) (n + 1)

/-- A value of the Python dict the handler returns. -/
inductive RetVal where
  | n (v : Int)
  | s (v : String)
deriving Repr, DecidableEq

/-- `json.dumps` of a plain string (no characters needing escapes occur
in the handler's message). -/
def jsonDumpsStr (s : String) : String := "\"" ++ s ++ "\""

/-- The dict the handler returns:
`{'statusCode': 200, 'body': json.dumps(f'Successfully processed N goals')}`. -/
def summaryDict (processed : Nat) : List (String × RetVal) :=
  [("statusCode", RetVal.n 200),
   ("body", RetVal.s (jsonDumpsStr
      ("Successfully processed " ++ toString processed ++ " goals")))]

/-- Outcome of one handler invocation: the return dict, or an uncaught
exception; either way the table state reached is carried. -/
inductive RunOutcome where
  | ok (t : Table) (ret : List (String × RetVal))
  | errored (t : Table) (e : JobError)
deriving Repr, DecidableEq

/-- The enrichment Lambda `handler` of `lambda_src/index.py`: scan once,
loop over the returned page, return the status dict — or let the first
exception propagate. -/
def handler (gen : String → Except String String) (now : String) (t : Table) :
    RunOutcome :=
  match processGoals gen now (scanItems t) t.items 0 with
  | .done items n => .ok ⟨items, t.pageLimit⟩ (summaryDict n)
  | .failed items e => .errored ⟨items, t.pageLimit⟩ e

/-- The items reached by a run, whether it returned or raised. -/
def RunOutcome.itemsOf : RunOutcome → List Item
  | .ok t _ => t.items
  | .errored t _ => t.items

/-- The dict returned by a run, when the invocation returned normally. -/
def RunOutcome.retOf : RunOutcome → Option (List (String × RetVal))
  | .ok _ ret => some ret
  | .errored _ _ => none

/-- The items reached by the loop, whether it completed or raised. -/
def LoopOutcome.itemsOf : LoopOutcome → List Item
  | .done items _ => items
  | .failed items _ => items

/-- The key value `goal['GoalID']` of a goal (meaningful when present). -/
def keyOf (g : Item) : AttrVal :=
  (lookupAttr g "GoalID").getD (AttrVal.s "")

/-- The cumulative table effect of successfully processing a list of
goals with a generation service that answers prompt `p` with `f p`. -/
def applyAll (f : String → String) (now : String)
    (gs : List Item) (items : List Item) : List Item :=
  gs.foldl (fun acc g => updateItem acc (keyOf g) (f (promptOf g)) now) items

/- ### CRUD service (`web_app.py`) -/

/-- The form fields `add_goal` reads; plain fields come from
`request.form['…']` (required), optional ones from `request.form.get`. -/
structure GoalForm where
  user_id : String
  goal_name : String
  goal_category : String
  goal_description : Option String
  target_date : String
  start_date : Option String
  priority : String
  status : Option String
  progress_percentage : Option Int
  progress_details : String
  milestones : Option String
  obstacles : Option String
  success_criteria : Option String
deriving Repr, DecidableEq

/-- `goal_id = f"goal-{datetime.now().strftime('%Y%m%d%H%M%S')}"`: the
GoalID is the creation timestamp rendered to second precision. -/
def mkGoalID (nowSec : String) : String := "goal-" ++ nowSec

/-- The item dict `add_goal` builds from the form.  `nowSec` is
`strftime('%Y%m%d%H%M%S')`, `nowDate` is `strftime('%Y-%m-%d')`, `nowIso`
is `datetime.now().isoformat()`. -/
def addGoalItem (form : GoalForm) (nowSec nowDate nowIso : String) : Item :=
  [("GoalID", AttrVal.s (mkGoalID nowSec)),
   ("UserID", AttrVal.s form.user_id),
   ("GoalName", AttrVal.s form.goal_name),
   ("GoalCategory", AttrVal.s form.goal_category),
   ("GoalDescription", AttrVal.s (form.goal_description.getD "")),
   ("TargetDate", AttrVal.s form.target_date),
   ("StartDate", AttrVal.s (form.start_date.getD nowDate)),
   ("Priority", AttrVal.s form.priority),
   ("Status", AttrVal.s (form.status.getD "Active")),
   ("ProgressPercentage", AttrVal.n (form.progress_percentage.getD 0)),
   ("ProgressDetails", AttrVal.s form.progress_details),
   ("Milestones", AttrVal.s (form.milestones.getD "")),
   ("Obstacles", AttrVal.s (form.obstacles.getD "")),
   ("SuccessCriteria", AttrVal.s (form.success_criteria.getD "")),
   ("CreatedAt", AttrVal.s nowIso),
   ("UpdatedAt", AttrVal.s nowIso)]

/-- DynamoDB `put_item`: full upsert — an existing item under the same
primary key is silently replaced, otherwise the item is added. -/
def putItem (items : List Item) (item : Item) : List Item :=
  if items.any (fun it => lookupAttr it "GoalID" == lookupAttr item "GoalID") then
    items.map (fun it =>
      if lookupAttr it "GoalID" == lookupAttr item "GoalID" then item else it)
  else
    items ++ [item]

/-- The write performed by the `add_goal` POST route of `web_app.py`. -/
def add_goal (items : List Item) (form : GoalForm)
    (nowSec nowDate nowIso : String) : List Item :=
  putItem items (addGoalItem form nowSec nowDate nowIso)

/- ### Concrete fixtures used by witnesses and counterexamples -/

def gA : Item := [("GoalID", AttrVal.s "goal-1"), ("GoalName", AttrVal.s "Run a 10k")]

def gB : Item := [("GoalID", AttrVal.s "goal-2"), ("GoalName", AttrVal.s "Read books")]

def gC : Item := [("GoalID", AttrVal.s "goal-3"), ("GoalName", AttrVal.s "Save money")]

def gGone : Item := [("GoalID", AttrVal.s "goal-7"), ("GoalName", AttrVal.s "Meditate")]

/-- A goal record lacking `GoalName`, `TargetDate` and `ProgressDetails`. -/
def gBare : Item := [("GoalID", AttrVal.s "goal-9")]

/-- A generation service that fails exactly on `gB`'s prompt. -/
def genFailB : String → Except String String :=
  fun p => if p = promptOf gB then .error "boom" else .ok "nice"

/-- The end-to-end run of the spec's testable properties: three stored
goals, a generator stub answering "Keep going!" on every call. -/
def run3 : RunOutcome :=
  handler (fun _ => .ok "Keep going!") "2026-10-12T08:00:00" ⟨[gA, gB, gC], none⟩

def f8a : GoalForm :=
  ⟨"u1", "Learn piano", "Skill", none, "2026-12-31", none, "High", none, none,
    "just started", none, none, none⟩

def f8b : GoalForm :=
  ⟨"u2", "Run marathon", "Health", none, "2026-06-30", none, "Low", none, none,
    "week one", none, none, none⟩

/- ### Basic lookup lemmas -/

theorem lookup_setAttr_self (it : Item) (k : String) (v : AttrVal) :
    lookupAttr (setAttr it k v) k = some v := by
  induction it with
  | nil => simp [setAttr, lookupAttr, List.lookup]
  | cons p rest ih =>
    obtain ⟨k₀, v₀⟩ := p
    by_cases hk : k₀ = k
    · subst hk
      simp [setAttr, lookupAttr, List.lookup]
    · have hb : (k₀ == k) = false := beq_eq_false_iff_ne.mpr hk
      have hb' : (k == k₀) = false := beq_eq_false_iff_ne.mpr (Ne.symm hk)
      simp only [setAttr, hb, Bool.false_eq_true, if_false]
      simpa [lookupAttr, List.lookup, hb'] using ih

theorem lookup_setAttr_ne (it : Item) (k k' : String) (v : AttrVal) (h : k' ≠ k) :
    lookupAttr (setAttr it k v) k' = lookupAttr it k' := by
  have hb : (k' == k) = false := beq_eq_false_iff_ne.mpr h
  induction it with
  | nil => simp [setAttr, lookupAttr, List.lookup, hb]
  | cons p rest ih =>
    obtain ⟨k₀, v₀⟩ := p
    by_cases hk : k₀ = k
    · subst hk
      simp [setAttr, lookupAttr, List.lookup, hb]
    · have hb₀ : (k₀ == k) = false := beq_eq_false_iff_ne.mpr hk
      by_cases hk' : k' = k₀
      · subst hk'
        simp [setAttr, hb₀, lookupAttr, List.lookup]
      · have hb' : (k' == k₀) = false := beq_eq_false_iff_ne.mpr hk'
        simp only [setAttr, hb₀, Bool.false_eq_true, if_false]
        simpa [lookupAttr, List.lookup, hb'] using ih

theorem lookup_enrich_MM (it : Item) (msg date : String) :
    lookupAttr (enrichItem it msg date) "MotivationalMessage" =
      some (AttrVal.s msg) := by
  unfold enrichItem
  rw [lookup_setAttr_ne _ _ _ _ (by decide), lookup_setAttr_self]

theorem lookup_enrich_LED (it : Item) (msg date : String) :
    lookupAttr (enrichItem it msg date) "LastEncouragementDate" =
      some (AttrVal.s date) := by
  unfold enrichItem
  rw [lookup_setAttr_self]

theorem lookup_enrich_ne (it : Item) (msg date : String) (k : String)
    (h1 : k ≠ "MotivationalMessage") (h2 : k ≠ "LastEncouragementDate") :
    lookupAttr (enrichItem it msg date) k = lookupAttr it k := by
  unfold enrichItem
  rw [lookup_setAttr_ne _ _ _ _ h2, lookup_setAttr_ne _ _ _ _ h1]

theorem goalID_enrich (it : Item) (msg date : String) :
    lookupAttr (enrichItem it msg date) "GoalID" = lookupAttr it "GoalID" :=
  lookup_enrich_ne it msg date _ (by decide) (by decide)

theorem itemKeyMatches_enrich (it : Item) (msg date : String) (key : AttrVal) :
    itemKeyMatches (enrichItem it msg date) key = itemKeyMatches it key := by
  unfold itemKeyMatches
  rw [goalID_enrich]

/- ### Pointwise behaviour of `updateItem` -/

theorem updateItem_getElem? (items : List Item) (key : AttrVal) (msg date : String)
    (i : Nat) (h : i < items.length) :
    (updateItem items key msg date)[i]? =
      (items[i]?).map
        (fun it => if itemKeyMatches it key then enrichItem it msg date else it) := by
  unfold updateItem
  by_cases hany : items.any (fun it => itemKeyMatches it key)
  · simp [hany, List.getElem?_map]
  · have hfalse : ∀ it ∈ items, itemKeyMatches it key = false := by
      intro it hit
      by_contra hcontra
      exact hany (List.any_eq_true.mpr ⟨it, hit, by
        cases hm : itemKeyMatches it key with
        | true => rfl
        | false => exact absurd hm hcontra⟩)
    have hlt : i < (items ++ [freshItem key msg date]).length := by
      simp; omega
    rw [if_neg hany, List.getElem?_append_left h, List.getElem?_eq_getElem h]
    have := hfalse (items[i]) (List.getElem_mem h)
    simp [this]

theorem updateItem_length_le (items : List Item) (key : AttrVal) (msg date : String) :
    items.length ≤ (updateItem items key msg date).length := by
  unfold updateItem
  by_cases hany : items.any (fun it => itemKeyMatches it key)
  · simp [hany]
  · simp [hany]

theorem updateItem_length_of_present (items : List Item) (key : AttrVal)
    (msg date : String) (h : items.any (fun it => itemKeyMatches it key) = true) :
    (updateItem items key msg date).length = items.length := by
  unfold updateItem
  simp [h]

theorem updateItem_any_mono (items : List Item) (key key' : AttrVal)
    (msg date : String)
    (h : items.any (fun it => itemKeyMatches it key) = true) :
    (updateItem items key' msg date).any (fun it => itemKeyMatches it key) = true := by
  obtain ⟨x, hx, hpx⟩ := List.any_eq_true.mp h
  unfold updateItem
  by_cases hany : items.any (fun it => itemKeyMatches it key')
  · rw [if_pos hany]
    refine List.any_eq_true.mpr ?_
    refine ⟨if itemKeyMatches x key' then enrichItem x msg date else x,
      List.mem_map.mpr ⟨x, hx, rfl⟩, ?_⟩
    by_cases hm : itemKeyMatches x key'
    · simpa [hm, itemKeyMatches_enrich] using hpx
    · simpa [hm] using hpx
  · rw [if_neg hany]
    exact List.any_eq_true.mpr ⟨x, List.mem_append_left _ hx, hpx⟩

/- ### The frame relation: all attributes except the two the job writes
are preserved, pointwise over the original positions of the table. -/

/-- Two items agree on every attribute other than `MotivationalMessage`
and `LastEncouragementDate`. -/
def agreesOff (a b : Item) : Prop :=
  ∀ k, k ≠ "MotivationalMessage" → k ≠ "LastEncouragementDate" →
    lookupAttr b k = lookupAttr a k

theorem agreesOff_refl (a : Item) : agreesOff a a := fun _ _ _ => rfl

theorem agreesOff_trans {a b c : Item} (h1 : agreesOff a b) (h2 : agreesOff b c) :
    agreesOff a c := fun k h h' => (h2 k h h').trans (h1 k h h')

theorem agreesOff_enrich (a : Item) (msg date : String) :
    agreesOff a (enrichItem a msg date) :=
  fun k h1 h2 => lookup_enrich_ne a msg date k h1 h2

/-- The job's frame: the table may only grow, and each original position
keeps every attribute other than the two enrichment fields. -/
def itemsFrame (old new : List Item) : Prop :=
  old.length ≤ new.length ∧
  ∀ i, i < old.length →
    ∃ a b, old[i]? = some a ∧ new[i]? = some b ∧ agreesOff a b

theorem itemsFrame_refl (items : List Item) : itemsFrame items items :=
  ⟨le_refl _, fun i h =>
    ⟨items[i], items[i], List.getElem?_eq_getElem h, List.getElem?_eq_getElem h,
      agreesOff_refl _⟩⟩

theorem itemsFrame_trans {l1 l2 l3 : List Item}
    (h1 : itemsFrame l1 l2) (h2 : itemsFrame l2 l3) : itemsFrame l1 l3 := by
  refine ⟨h1.1.trans h2.1, fun i hi => ?_⟩
  obtain ⟨a, b, ha, hb, hab⟩ := h1.2 i hi
  obtain ⟨b', c, hb', hc, hbc⟩ := h2.2 i (lt_of_lt_of_le hi h1.1)
  rw [hb] at hb'
  cases hb'
  exact ⟨a, c, ha, hc, agreesOff_trans hab hbc⟩

theorem updateItem_itemsFrame (items : List Item) (key : AttrVal) (msg date : String) :
    itemsFrame items (updateItem items key msg date) := by
  refine ⟨updateItem_length_le items key msg date, fun i hi => ?_⟩
  refine ⟨items[i], if itemKeyMatches items[i] key then enrichItem items[i] msg date
    else items[i], List.getElem?_eq_getElem hi, ?_, ?_⟩
  · rw [updateItem_getElem? items key msg date i hi, List.getElem?_eq_getElem hi]
    rfl
  · by_cases hm : itemKeyMatches items[i] key
    · simpa [hm] using agreesOff_enrich items[i] msg date
    · simpa [hm] using agreesOff_refl items[i]

theorem updateItem_untouched (items : List Item) (key : AttrVal) (msg date : String)
    (i : Nat) (a : Item) (ha : items[i]? = some a)
    (hm : itemKeyMatches a key = false) :
    (updateItem items key msg date)[i]? = some a := by
  have hlt : i < items.length := by
    by_contra hge
    rw [List.getElem?_eq_none (Nat.le_of_not_lt hge)] at ha
    cases ha
  rw [updateItem_getElem? items key msg date i hlt, ha]
  simp [hm]

theorem updateItem_enriches (items : List Item) (key : AttrVal) (msg date : String)
    (i : Nat) (a : Item) (ha : items[i]? = some a)
    (hm : itemKeyMatches a key = true) :
    (updateItem items key msg date)[i]? = some (enrichItem a msg date) := by
  have hlt : i < items.length := by
    by_contra hge
    rw [List.getElem?_eq_none (Nat.le_of_not_lt hge)] at ha
    cases ha
  rw [updateItem_getElem? items key msg date i hlt, ha]
  simp [hm]

/- ### The loop: counting, framing, untouched records -/

theorem processGoals_done_count (gen : String → Except String String) (now : String)
    (gs : List Item) :
    ∀ items n items' m,
      processGoals gen now gs items n = .done items' m → m = n + gs.length := by
  induction gs with
  | nil =>
    intro items n items' m h
    simp only [processGoals] at h
    cases h
    simp
  | cons g rest ih =>
    intro items n items' m h
    simp only [processGoals] at h
    cases hgen : gen (promptOf g) with
    | error e => rw [hgen] at h; cases h
    | ok msg =>
      rw [hgen] at h
      cases hkey : lookupAttr g "GoalID" with
      | none => rw [hkey] at h; cases h
      | some key =>
        rw [hkey] at h
        have := ih _ _ _ _ h
        simp [this]
        omega

theorem processGoals_itemsFrame (gen : String → Except String String) (now : String)
    (gs : List Item) :
    ∀ items n, itemsFrame items (processGoals gen now gs items n).itemsOf := by
  induction gs with
  | nil => intro items n; exact itemsFrame_refl items
  | cons g rest ih =>
    intro items n
    simp only [processGoals]
    cases hgen : gen (promptOf g) with
    | error e => exact itemsFrame_refl items
    | ok msg =>
      cases hkey : lookupAttr g "GoalID" with
      | none => exact itemsFrame_refl items
      | some key =>
        exact itemsFrame_trans (updateItem_itemsFrame items key msg now) (ih _ _)

theorem processGoals_untouched (gen : String → Except String String) (now : String)
    (gs : List Item) :
    ∀ (items : List Item) (n i : Nat) (a : Item), items[i]? = some a →
      (∀ g ∈ gs, lookupAttr a "GoalID" ≠ lookupAttr g "GoalID") →
      ((processGoals gen now gs items n).itemsOf)[i]? = some a := by
  induction gs with
  | nil => intro items n i a ha _; exact ha
  | cons g rest ih =>
    intro items n i a ha hne
    simp only [processGoals]
    cases hgen : gen (promptOf g) with
    | error e => exact ha
    | ok msg =>
      cases hkey : lookupAttr g "GoalID" with
      | none => exact ha
      | some key =>
        have hm : itemKeyMatches a key = false := by
          have := hne g (List.mem_cons_self g rest)
          rw [hkey] at this
          simp [itemKeyMatches]
          intro hcontra
          exact this (by rw [hcontra])
        exact ih _ _ i a (updateItem_untouched items key msg now i a ha hm)
          (fun g' hg' => hne g' (List.mem_cons_of_mem g hg'))

/- ### Successful runs compute `applyAll` -/

theorem applyAll_cons (f : String → String) (now : String) (g : Item)
    (gs : List Item) (items : List Item) :
    applyAll f now (g :: gs) items =
      applyAll f now gs (updateItem items (keyOf g) (f (promptOf g)) now) := rfl

theorem applyAll_append (f : String → String) (now : String) (xs ys : List Item)
    (items : List Item) :
    applyAll f now (xs ++ ys) items = applyAll f now ys (applyAll f now xs items) :=
  List.foldl_append ..

theorem processGoals_ok_run (gen : String → Except String String)
    (f : String → String) (now : String) (pre : List Item) :
    ∀ (rest : List Item) (items : List Item) (n : Nat),
      (∀ g ∈ pre, gen (promptOf g) = .ok (f (promptOf g))) →
      (∀ g ∈ pre, (lookupAttr g "GoalID").isSome) →
      processGoals gen now (pre ++ rest) items n =
        processGoals gen now rest (applyAll f now pre items) (n + pre.length) := by
  induction pre with
  | nil =>
    intro rest items n _ _
    simp [applyAll]
  | cons g pre' ih =>
    intro rest items n hgen hkeys
    have hg : gen (promptOf g) = .ok (f (promptOf g)) :=
      hgen g (List.mem_cons_self g pre')
    obtain ⟨key, hkey⟩ := Option.isSome_iff_exists.mp
      (hkeys g (List.mem_cons_self g pre'))
    have hkeyOf : keyOf g = key := by simp [keyOf, hkey]
    simp only [List.cons_append, processGoals, hg, hkey, List.append_eq]
    rw [applyAll_cons, hkeyOf]
    have := ih rest (updateItem items key (f (promptOf g)) now) (n + 1)
      (fun g' hg' => hgen g' (List.mem_cons_of_mem g hg'))
      (fun g' hg' => hkeys g' (List.mem_cons_of_mem g hg'))
    rw [this]
    have harith : n + 1 + pre'.length = n + (pre'.length + 1) := by omega
    simp [harith]

theorem processGoals_all_ok (gen : String → Except String String)
    (f : String → String) (now : String) (gs : List Item)
    (items : List Item) (n : Nat)
    (hgen : ∀ g ∈ gs, gen (promptOf g) = .ok (f (promptOf g)))
    (hkeys : ∀ g ∈ gs, (lookupAttr g "GoalID").isSome) :
    processGoals gen now gs items n = .done (applyAll f now gs items) (n + gs.length) := by
  have := processGoals_ok_run gen f now gs [] items n hgen hkeys
  simpa [processGoals] using this

theorem applyAll_itemsFrame (f : String → String) (now : String) (gs : List Item) :
    ∀ items : List Item, itemsFrame items (applyAll f now gs items) := by
  induction gs with
  | nil => intro items; exact itemsFrame_refl items
  | cons g rest ih =>
    intro items
    rw [applyAll_cons]
    exact itemsFrame_trans (updateItem_itemsFrame items (keyOf g) (f (promptOf g)) now)
      (ih _)

theorem applyAll_untouched (f : String → String) (now : String) (gs : List Item) :
    ∀ (items : List Item) (i : Nat) (a : Item), items[i]? = some a →
      (∀ g ∈ gs, (lookupAttr g "GoalID").isSome) →
      (∀ g ∈ gs, lookupAttr a "GoalID" ≠ lookupAttr g "GoalID") →
      (applyAll f now gs items)[i]? = some a := by
  induction gs with
  | nil => intro items i a ha _ _; exact ha
  | cons g rest ih =>
    intro items i a ha hkeys hne
    rw [applyAll_cons]
    obtain ⟨key, hkey⟩ := Option.isSome_iff_exists.mp
      (hkeys g (List.mem_cons_self g rest))
    have hkeyOf : keyOf g = key := by simp [keyOf, hkey]
    have hm : itemKeyMatches a key = false := by
      have := hne g (List.mem_cons_self g rest)
      rw [hkey] at this
      simp [itemKeyMatches]
      intro hcontra
      exact this (by rw [hcontra])
    rw [hkeyOf]
    exact ih _ i a (updateItem_untouched items key (f (promptOf g)) now i a ha hm)
      (fun g' hg' => hkeys g' (List.mem_cons_of_mem g hg'))
      (fun g' hg' => hne g' (List.mem_cons_of_mem g hg'))

theorem applyAll_length (f : String → String) (now : String) (gs : List Item) :
    ∀ items : List Item,
      (∀ g ∈ gs, items.any (fun it => itemKeyMatches it (keyOf g)) = true) →
      (applyAll f now gs items).length = items.length := by
  induction gs with
  | nil => intro items _; rfl
  | cons g rest ih =>
    intro items hp
    rw [applyAll_cons]
    have hg := hp g (List.mem_cons_self g rest)
    have hlen := updateItem_length_of_present items (keyOf g) (f (promptOf g)) now hg
    rw [ih _ (fun g' hg' =>
      updateItem_any_mono items (keyOf g') (keyOf g) (f (promptOf g)) now
        (hp g' (List.mem_cons_of_mem g hg'))), hlen]

/- ### Records are written: `MotivationalMessage` and
`LastEncouragementDate` become present -/

/-- Position `i` of the table holds an item carrying both enrichment
fields. -/
def enrichedAt (items : List Item) (i : Nat) : Prop :=
  ∃ b, items[i]? = some b ∧
    (lookupAttr b "MotivationalMessage").isSome ∧
    (lookupAttr b "LastEncouragementDate").isSome

theorem updateItem_enrichedAt_mono (items : List Item) (key : AttrVal)
    (msg date : String) (i : Nat) (h : enrichedAt items i) :
    enrichedAt (updateItem items key msg date) i := by
  obtain ⟨b, hb, hmm, hled⟩ := h
  by_cases hm : itemKeyMatches b key
  · exact ⟨enrichItem b msg date, updateItem_enriches items key msg date i b hb hm,
      by rw [lookup_enrich_MM]; rfl, by rw [lookup_enrich_LED]; rfl⟩
  · exact ⟨b, updateItem_untouched items key msg date i b hb (by simpa using hm),
      hmm, hled⟩

theorem applyAll_enrichedAt_mono (f : String → String) (now : String)
    (gs : List Item) :
    ∀ (items : List Item) (i : Nat), enrichedAt items i →
      enrichedAt (applyAll f now gs items) i := by
  induction gs with
  | nil => intro items i h; exact h
  | cons g rest ih =>
    intro items i h
    rw [applyAll_cons]
    exact ih _ i (updateItem_enrichedAt_mono items (keyOf g) (f (promptOf g)) now i h)

theorem applyAll_enriches (f : String → String) (now : String) (gs : List Item) :
    ∀ (items : List Item) (i : Nat) (a : Item) (key : AttrVal),
      items[i]? = some a →
      lookupAttr a "GoalID" = some key →
      (∃ g ∈ gs, lookupAttr g "GoalID" = some key) →
      enrichedAt (applyAll f now gs items) i := by
  induction gs with
  | nil =>
    intro items i a key _ _ hg
    obtain ⟨g, hmem, _⟩ := hg
    cases hmem
  | cons g rest ih =>
    intro items i a key ha hak hg
    rw [applyAll_cons]
    by_cases hm : itemKeyMatches a (keyOf g)
    · refine applyAll_enrichedAt_mono f now rest _ i ?_
      exact ⟨enrichItem a (f (promptOf g)) now,
        updateItem_enriches items (keyOf g) (f (promptOf g)) now i a ha hm,
        by rw [lookup_enrich_MM]; rfl, by rw [lookup_enrich_LED]; rfl⟩
    · have ha' : (updateItem items (keyOf g) (f (promptOf g)) now)[i]? = some a :=
        updateItem_untouched items (keyOf g) (f (promptOf g)) now i a ha
          (by simpa using hm)
      obtain ⟨g', hg'mem, hg'key⟩ := hg
      rcases List.mem_cons.mp hg'mem with hgg | hrest
      · exfalso
        subst hgg
        have hkeyOf : keyOf g' = key := by simp [keyOf, hg'key]
        apply hm
        simp [itemKeyMatches, hkeyOf, hak]
      · exact ih _ i a key ha' hak ⟨g', hrest, hg'key⟩

/- ### Handler-level helper lemmas -/

theorem handler_itemsOf (gen : String → Except String String) (now : String)
    (t : Table) :
    (handler gen now t).itemsOf =
      (processGoals gen now (scanItems t) t.items 0).itemsOf := by
  unfold handler
  cases processGoals gen now (scanItems t) t.items 0 with
  | done items n => rfl
  | failed items e => rfl

theorem scanItems_sub (t : Table) : ∀ g ∈ scanItems t, g ∈ t.items := by
  intro g hg
  unfold scanItems at hg
  cases hp : t.pageLimit with
  | none => rw [hp] at hg; exact hg
  | some n => rw [hp] at hg; exact List.take_subset n _ hg

theorem scanItems_length_congr (t1 t2 : Table)
    (hlen : t1.items.length = t2.items.length)
    (hp : t1.pageLimit = t2.pageLimit) :
    (scanItems t1).length = (scanItems t2).length := by
  unfold scanItems
  rw [hp]
  cases t2.pageLimit with
  | none => exact hlen
  | some n => simp [hlen]

theorem applyAll_keys_isSome (f : String → String) (now : String)
    (gs : List Item) (items : List Item)
    (hkeys : ∀ g ∈ items, (lookupAttr g "GoalID").isSome)
    (hlen : (applyAll f now gs items).length = items.length) :
    ∀ g ∈ applyAll f now gs items, (lookupAttr g "GoalID").isSome := by
  intro b hb
  obtain ⟨i, hi, hbeq⟩ := List.mem_iff_getElem.mp hb
  have hi' : i < items.length := by rw [← hlen]; exact hi
  obtain ⟨a, b', ha, hb', hab⟩ := (applyAll_itemsFrame f now gs items).2 i hi'
  have hbb : b' = b := by
    rw [List.getElem?_eq_getElem hi] at hb'
    have := hb'.symm
    rw [hbeq] at this
    exact Eq.symm (Eq.symm (Option.some.inj this))
  have hga : lookupAttr b "GoalID" = lookupAttr a "GoalID" := by
    rw [← hbb]
    exact hab "GoalID" (by decide) (by decide)
  rw [hga]
  exact hkeys a (List.getElem?_mem ha)

theorem handler_allOk (f : String → String) (now : String) (t : Table)
    (hkeys : ∀ g ∈ t.items, (lookupAttr g "GoalID").isSome) :
    handler (fun p => .ok (f p)) now t =
      .ok ⟨applyAll f now (scanItems t) t.items, t.pageLimit⟩
        (summaryDict (scanItems t).length) ∧
    (applyAll f now (scanItems t) t.items).length = t.items.length ∧
    itemsFrame t.items (applyAll f now (scanItems t) t.items) ∧
    ∀ g ∈ applyAll f now (scanItems t) t.items, (lookupAttr g "GoalID").isSome := by
  have hskeys : ∀ g ∈ scanItems t, (lookupAttr g "GoalID").isSome :=
    fun g hg => hkeys g (scanItems_sub t g hg)
  have hany : ∀ g ∈ scanItems t,
      t.items.any (fun it => itemKeyMatches it (keyOf g)) = true := by
    intro g hg
    obtain ⟨key, hkey⟩ := Option.isSome_iff_exists.mp (hskeys g hg)
    refine List.any_eq_true.mpr ⟨g, scanItems_sub t g hg, ?_⟩
    simp [itemKeyMatches, hkey, keyOf]
  have hlen := applyAll_length f now (scanItems t) t.items hany
  refine ⟨?_, hlen, applyAll_itemsFrame f now (scanItems t) t.items,
    applyAll_keys_isSome f now (scanItems t) t.items hkeys hlen⟩
  unfold handler
  rw [processGoals_all_ok (fun p => .ok (f p)) f now (scanItems t) t.items 0
    (fun g _ => rfl) hskeys]
  simp

/- ### CRUD helper lemmas -/

theorem mkGoalID_inj (ts1 ts2 : String) (h : mkGoalID ts1 = mkGoalID ts2) :
    ts1 = ts2 := by
  unfold mkGoalID at h
  have hd := congrArg String.data h
  rw [String.data_append, String.data_append] at hd
  exact String.ext (List.append_cancel_left hd)

theorem addGoalItem_goalID (form : GoalForm) (nowSec nowDate nowIso : String) :
    lookupAttr (addGoalItem form nowSec nowDate nowIso) "GoalID" =
      some (AttrVal.s (mkGoalID nowSec)) := rfl

theorem putItem_fresh (items : List Item) (item : Item)
    (hfresh : items.any
      (fun it => lookupAttr it "GoalID" == lookupAttr item "GoalID") = false) :
    putItem items item = items ++ [item] := by
  unfold putItem
  rw [hfresh]
  simp

/- ### Claim theorems -/

/-- C1 (amended): the Python handler has no per-goal error handling, so a
`GenerationError` for goal K propagates out of the top-level invocation:
goals scanned before K are fully generated and written, goal K's record
(and every record none of the earlier goals key-match) is unchanged,
goals after K are not processed, and no summary is returned. -/
theorem genError_propagates (gen : String → Except String String)
    (f : String → String) (now em : String) (t : Table)
    (pre : List Item) (g : Item) (post : List Item)
    (hscan : scanItems t = pre ++ g :: post)
    (hpre : ∀ g' ∈ pre, gen (promptOf g') = .ok (f (promptOf g')))
    (hprekeys : ∀ g' ∈ pre, (lookupAttr g' "GoalID").isSome)
    (hfail : gen (promptOf g) = .error em) :
    handler gen now t =
      .errored ⟨applyAll f now pre t.items, t.pageLimit⟩
        (JobError.generationError em) ∧
    ∀ (i : Nat) (a : Item), t.items[i]? = some a →
      (∀ g' ∈ pre, lookupAttr a "GoalID" ≠ lookupAttr g' "GoalID") →
      (applyAll f now pre t.items)[i]? = some a := by
  constructor
  · unfold handler
    rw [hscan, processGoals_ok_run gen f now pre (g :: post) t.items 0 hpre hprekeys]
    simp [processGoals, hfail]
  · intro i a ha hne
    exact applyAll_untouched f now pre t.items i a ha hprekeys hne

set_option maxRecDepth 4096 in
/-- C1 witness: a two-goal table where the generation call fails on the
second goal; the handler raises with the first goal already written. -/
theorem genError_propagates_witness :
    handler genFailB "T0" ⟨[gA, gB], none⟩ =
      .errored ⟨applyAll (fun _ => "nice") "T0" [gA] [gA, gB], none⟩
        (JobError.generationError "boom") :=
  (genError_propagates genFailB (fun _ => "nice") "T0" "boom" ⟨[gA, gB], none⟩
    [gA] gB [] rfl
    (by
      intro g' hg'
      rw [List.mem_singleton] at hg'
      subst hg'
      rfl)
    (by decide)
    (by rfl)).1

set_option maxRecDepth 4096 in
/-- C1 counterexample: with two scanned goals and the generation call
failing for exactly the second one, the job raises
(`RunOutcome.errored`) instead of returning a summary with
`processed_count == 1`; the claimed never-raise behaviour is false. -/
theorem isolation_cex :
    handler genFailB "T0" ⟨[gA, gB], none⟩ =
      .errored ⟨[[("GoalID", AttrVal.s "goal-1"), ("GoalName", AttrVal.s "Run a 10k"),
          ("MotivationalMessage", AttrVal.s "nice"),
          ("LastEncouragementDate", AttrVal.s "T0")], gB], none⟩
        (JobError.generationError "boom") := by
  rfl

/-- C2 (amended): a DynamoDB `update_item` with no condition expression is
an upsert, so the update-write against a concurrently deleted record does
not fail: it re-creates a record holding only `GoalID`,
`MotivationalMessage` and `LastEncouragementDate`, the goal IS counted in
`processed_count`, and no exception propagates. -/
theorem deleted_goal_upsert (gen : String → Except String String)
    (now msg : String) (g : Item) (key : AttrVal) (items : List Item) (n : Nat)
    (hkey : lookupAttr g "GoalID" = some key)
    (hgen : gen (promptOf g) = .ok msg)
    (habsent : items.any (fun it => itemKeyMatches it key) = false) :
    processGoals gen now [g] items n =
      .done (items ++ [freshItem key msg now]) (n + 1) := by
  simp [processGoals, hgen, hkey, updateItem, habsent]

/-- C2 witness: the snapshot holds `gGone` while the live table no longer
does; the loop completes, counts the goal, and appends a fresh record. -/
theorem deleted_goal_upsert_witness :
    processGoals (fun _ => .ok "Keep it up") "T1" [gGone] [] 0 =
      .done ([] ++ [freshItem (AttrVal.s "goal-7") "Keep it up" "T1"]) (0 + 1) :=
  deleted_goal_upsert (fun _ => .ok "Keep it up") "T1" "Keep it up" gGone
    (AttrVal.s "goal-7") [] 0 rfl rfl rfl

/-- C2 counterexample: a goal in the scan snapshot whose record was
deleted before the update-write.  The loop returns `processed = 1` (the
claim says the goal is not counted) and the table again holds a record
under the deleted key (the claim says the record is not re-created). -/
theorem deletion_race_cex :
    processGoals (fun _ => .ok "Keep it up") "T1" [gGone] [] 0 =
      .done [[("GoalID", AttrVal.s "goal-7"),
        ("MotivationalMessage", AttrVal.s "Keep it up"),
        ("LastEncouragementDate", AttrVal.s "T1")]] 1 := by
  rfl

/-- C3 (amended): whenever the handler returns, its return value is a dict
with exactly the keys `statusCode` (200) and `body` (the JSON-encoded
string "Successfully processed N goals", N being the number of goals
processed); it carries no `status`, `processed_count` or `total_count`
entry. -/
theorem summary_shape (gen : String → Except String String) (now : String)
    (t t' : Table) (ret : List (String × RetVal))
    (h : handler gen now t = .ok t' ret) :
    ret = summaryDict (scanItems t).length ∧
    ret.map Prod.fst = ["statusCode", "body"] ∧
    ret.lookup "status" = none ∧
    ret.lookup "processed_count" = none ∧
    ret.lookup "total_count" = none := by
  have hret : ret = summaryDict (scanItems t).length := by
    unfold handler at h
    cases hpg : processGoals gen now (scanItems t) t.items 0 with
    | done items n =>
      rw [hpg] at h
      have hcount :=
        processGoals_done_count gen now (scanItems t) t.items 0 items n hpg
      cases h
      rw [hcount, Nat.zero_add]
    | failed items e => rw [hpg] at h; cases h
  subst hret
  exact ⟨rfl, rfl, rfl, rfl, rfl⟩

/-- C3 witness: a concrete one-goal run, whose returned dict is
`summaryDict 1` and lacks the three claimed fields. -/
theorem summary_shape_witness :
    summaryDict 1 = summaryDict (scanItems ⟨[gA], none⟩).length ∧
    (summaryDict 1).map Prod.fst = ["statusCode", "body"] ∧
    (summaryDict 1).lookup "status" = none ∧
    (summaryDict 1).lookup "processed_count" = none ∧
    (summaryDict 1).lookup "total_count" = none :=
  summary_shape (fun _ => .ok "m") "T2" ⟨[gA], none⟩
    ⟨[enrichItem gA "m" "T2"], none⟩ (summaryDict 1) rfl

/-- C3 counterexample: a successful one-goal invocation returns the dict
`{'statusCode': 200, 'body': ...}`; looking up the fields the claim
promises — `status`, `processed_count`, `total_count` — yields nothing. -/
theorem summary_shape_cex :
    (handler (fun _ => .ok "m") "T2" ⟨[gA], none⟩).retOf = some (summaryDict 1) ∧
    (summaryDict 1).lookup "status" = none ∧
    (summaryDict 1).lookup "processed_count" = none ∧
    (summaryDict 1).lookup "total_count" = none :=
  ⟨rfl, rfl, rfl, rfl⟩

/-- C4: frame property of enrichment.  Whatever the generation service
does, after a handler run every original record keeps every attribute
other than `MotivationalMessage` and `LastEncouragementDate` (in
particular `CreatedAt` and `UpdatedAt`), and any record whose key none of
the scanned goals carries — e.g. records beyond the scanned page — is
literally untouched. -/
theorem enrichment_frame (gen : String → Except String String) (now : String)
    (t : Table) :
    itemsFrame t.items ((handler gen now t).itemsOf) ∧
    ∀ (i : Nat) (a : Item), t.items[i]? = some a →
      (∀ g ∈ scanItems t, lookupAttr a "GoalID" ≠ lookupAttr g "GoalID") →
      ((handler gen now t).itemsOf)[i]? = some a := by
  rw [handler_itemsOf]
  exact ⟨processGoals_itemsFrame gen now (scanItems t) t.items 0,
    fun i a ha hne =>
      processGoals_untouched gen now (scanItems t) t.items 0 i a ha hne⟩

/-- C4 witness: a paginated table (page size 1); the off-page record `gB`
is untouched by the run. -/
theorem enrichment_frame_witness :
    ((handler (fun _ => .ok "m") "T3" ⟨[gA, gB], some 1⟩).itemsOf)[1]? = some gB :=
  (enrichment_frame (fun _ => .ok "m") "T3" ⟨[gA, gB], some 1⟩).2 1 gB rfl
    (by decide)

/-- C5 (amended): three stored goals with a generator stub answering
"Keep going!" — all three records end up with
`MotivationalMessage == "Keep going!"` and a non-empty
`LastEncouragementDate`, but the returned summary is the handler's
`{'statusCode': 200, 'body': '"Successfully processed 3 goals"'}` dict
(`summaryDict 3`), which carries no `processed_count`/`total_count`
fields. -/
theorem end_to_end_three_goals :
    run3.retOf = some (summaryDict 3) ∧
    lookupAttr (run3.itemsOf.getD 0 []) "MotivationalMessage" =
      some (AttrVal.s "Keep going!") ∧
    lookupAttr (run3.itemsOf.getD 1 []) "MotivationalMessage" =
      some (AttrVal.s "Keep going!") ∧
    lookupAttr (run3.itemsOf.getD 2 []) "MotivationalMessage" =
      some (AttrVal.s "Keep going!") ∧
    lookupAttr (run3.itemsOf.getD 0 []) "LastEncouragementDate" =
      some (AttrVal.s "2026-10-12T08:00:00") ∧
    lookupAttr (run3.itemsOf.getD 1 []) "LastEncouragementDate" =
      some (AttrVal.s "2026-10-12T08:00:00") ∧
    lookupAttr (run3.itemsOf.getD 2 []) "LastEncouragementDate" =
      some (AttrVal.s "2026-10-12T08:00:00") ∧
    "2026-10-12T08:00:00" ≠ "" ∧
    run3.itemsOf.length = 3 := by
  refine ⟨rfl, rfl, rfl, rfl, rfl, rfl, rfl, by decide, rfl⟩

/-- C5 counterexample: the summary the three-goal run returns has no
`processed_count` or `total_count` field to equal 3 — the claimed summary
shape is false even though all three goals were processed. -/
theorem end_to_end_summary_cex :
    run3.retOf = some (summaryDict 3) ∧
    (summaryDict 3).lookup "processed_count" = none ∧
    (summaryDict 3).lookup "total_count" = none :=
  ⟨rfl, rfl, rfl⟩

/-- C6: missing optional fields degrade to the defaults "Unknown" /
"Not set" / "No details" inside the prompt, and a goal with all of them
absent is still generated for and persisted — the loop step completes and
counts it. -/
theorem default_substitution (gen : String → Except String String)
    (now msg : String) (g : Item) (key : AttrVal) (items : List Item)
    (hkey : lookupAttr g "GoalID" = some key)
    (hgen : gen (promptOf g) = .ok msg) :
    (lookupAttr g "GoalName" = none →
      getS g "GoalName" "Unknown" = "Unknown") ∧
    (lookupAttr g "TargetDate" = none →
      getS g "TargetDate" "Not set" = "Not set") ∧
    (lookupAttr g "ProgressDetails" = none →
      getS g "ProgressDetails" "No details" = "No details") ∧
    (lookupAttr g "GoalName" = none → lookupAttr g "TargetDate" = none →
      lookupAttr g "ProgressDetails" = none →
      promptOf g = mkPrompt "Unknown" "Not set" "No details") ∧
    processGoals gen now [g] items 0 = .done (updateItem items key msg now) 1 := by
  refine ⟨?_, ?_, ?_, ?_, ?_⟩
  · intro h; simp [getS, h]
  · intro h; simp [getS, h]
  · intro h; simp [getS, h]
  · intro h1 h2 h3; simp [promptOf, getS, h1, h2, h3]
  · simp [processGoals, hgen, hkey]

/-- C6 witness: `gBare` lacks all three descriptive fields; its prompt
uses the three defaults and the loop still writes a message for it. -/
theorem default_substitution_witness :
    promptOf gBare = mkPrompt "Unknown" "Not set" "No details" ∧
    processGoals (fun _ => .ok "You got this") "T4" [gBare] [gBare] 0 =
      .done (updateItem [gBare] (AttrVal.s "goal-9") "You got this" "T4") 1 :=
  let h := default_substitution (fun _ => .ok "You got this") "T4" "You got this"
    gBare (AttrVal.s "goal-9") [gBare] rfl rfl
  ⟨h.2.2.2.1 rfl rfl rfl, h.2.2.2.2⟩

/-- C7 (amended): the handler issues a single `scan` call and consumes
only the first page.  When the store returns all goals in one page
(`pageLimit = none`), every stored goal is attempted: the run succeeds
and every record carries both enrichment fields afterwards.  (Paginated
stores falsify the original claim — see the counterexample.) -/
theorem scan_first_page_coverage (f : String → String) (now : String) (t : Table)
    (hpage : t.pageLimit = none)
    (hkeys : ∀ g ∈ t.items, (lookupAttr g "GoalID").isSome) :
    handler (fun p => .ok (f p)) now t =
      .ok ⟨applyAll f now t.items t.items, none⟩ (summaryDict t.items.length) ∧
    ∀ i, i < t.items.length → enrichedAt (applyAll f now t.items t.items) i := by
  have hscan : scanItems t = t.items := by unfold scanItems; rw [hpage]
  have h := handler_allOk f now t hkeys
  rw [hscan, hpage] at h
  refine ⟨h.1, ?_⟩
  intro i hi
  obtain ⟨key, hkey⟩ := Option.isSome_iff_exists.mp
    (hkeys (t.items[i]) (List.getElem_mem hi))
  exact applyAll_enriches f now t.items t.items i (t.items[i]) key
    (List.getElem?_eq_getElem hi) hkey ⟨t.items[i], List.getElem_mem hi, hkey⟩

/-- C7 witness: a two-goal single-page table; the run reports both goals
processed. -/
theorem scan_first_page_coverage_witness :
    handler (fun p => .ok ((fun _ => "Go!") p)) "T5" ⟨[gA, gB], none⟩ =
      .ok ⟨applyAll (fun _ => "Go!") "T5" [gA, gB] [gA, gB], none⟩
        (summaryDict 2) :=
  (scan_first_page_coverage (fun _ => "Go!") "T5" ⟨[gA, gB], none⟩ rfl
    (by decide)).1

/-- C7 counterexample: a store whose scan paginates after one item.  Goal
`gB` is stored but never attempted: the run returns `processed = 1` of 2
stored goals and `gB` has no message — the scan consumed by the job does
NOT contain every stored goal. -/
theorem scan_pagination_cex :
    handler (fun _ => .ok "Go!") "T5" ⟨[gA, gB], some 1⟩ =
      .ok ⟨[[("GoalID", AttrVal.s "goal-1"), ("GoalName", AttrVal.s "Run a 10k"),
          ("MotivationalMessage", AttrVal.s "Go!"),
          ("LastEncouragementDate", AttrVal.s "T5")], gB], some 1⟩
        (summaryDict 1) ∧
    lookupAttr gB "MotivationalMessage" = none :=
  ⟨rfl, rfl⟩

/-- C8 (amended): `add_goal` derives the GoalID from the creation
timestamp at second granularity.  Two creations whose second-level
timestamps differ receive distinct GoalIDs, and a creation whose GoalID
is not yet present appends a new record without replacing anything; but
two creations within the same second collide (see the counterexample). -/
theorem goalid_second_granularity (ts1 ts2 : String) (items : List Item)
    (form : GoalForm) (nd ni : String)
    (hts : ts1 ≠ ts2)
    (hfresh : items.any
      (fun it => lookupAttr it "GoalID" == some (AttrVal.s (mkGoalID ts1))) = false) :
    mkGoalID ts1 ≠ mkGoalID ts2 ∧
    add_goal items form ts1 nd ni = items ++ [addGoalItem form ts1 nd ni] := by
  constructor
  · intro heq
    exact hts (mkGoalID_inj ts1 ts2 heq)
  · unfold add_goal
    refine putItem_fresh items (addGoalItem form ts1 nd ni) ?_
    rw [addGoalItem_goalID]
    exact hfresh

/-- C8 witness: two creations one second apart get distinct GoalIDs, and
the second write appends rather than replaces. -/
theorem goalid_second_granularity_witness :
    mkGoalID "20251012080000" ≠ mkGoalID "20251012080001" ∧
    add_goal (add_goal [] f8a "20251012080001" "2025-10-12" "I1") f8b
        "20251012080000" "2025-10-12" "I2" =
      add_goal [] f8a "20251012080001" "2025-10-12" "I1" ++
        [addGoalItem f8b "20251012080000" "2025-10-12" "I2"] :=
  goalid_second_granularity "20251012080000" "20251012080001"
    (add_goal [] f8a "20251012080001" "2025-10-12" "I1") f8b "2025-10-12" "I2"
    (by decide) (by decide)

/-- C8 counterexample: two distinct goal creations within the same second
(`strftime('%Y%m%d%H%M%S')` yields the same string) are assigned the SAME
GoalID, and the second `put_item` silently replaces the first record —
the store ends up with a single record, the second form's. -/
theorem goalid_collision_cex :
    add_goal (add_goal [] f8a "20251012080000" "2025-10-12" "I1") f8b
        "20251012080000" "2025-10-12" "I2" =
      [addGoalItem f8b "20251012080000" "2025-10-12" "I2"] ∧
    lookupAttr (addGoalItem f8a "20251012080000" "2025-10-12" "I1") "GoalID" =
      lookupAttr (addGoalItem f8b "20251012080000" "2025-10-12" "I2") "GoalID" :=
  ⟨rfl, rfl⟩

/-- C9: running the job twice in a row with no intervening edits (and a
generation service that answers every call) returns the same
processed count both times — `summaryDict (scanItems t).length` — and
each run preserves every field other than the two enrichment fields, and
neither run adds or removes records. -/
theorem run_twice_same_count (f1 f2 : String → String) (now1 now2 : String)
    (t : Table)
    (hkeys : ∀ g ∈ t.items, (lookupAttr g "GoalID").isSome) :
    ∃ items1 items2 : List Item,
      handler (fun p => .ok (f1 p)) now1 t =
        .ok ⟨items1, t.pageLimit⟩ (summaryDict (scanItems t).length) ∧
      handler (fun p => .ok (f2 p)) now2 ⟨items1, t.pageLimit⟩ =
        .ok ⟨items2, t.pageLimit⟩ (summaryDict (scanItems t).length) ∧
      itemsFrame t.items items1 ∧ itemsFrame items1 items2 ∧
      items1.length = t.items.length ∧ items2.length = items1.length := by
  obtain ⟨h1, hlen1, hframe1, hkeys1⟩ := handler_allOk f1 now1 t hkeys
  obtain ⟨h2, hlen2, hframe2, hkeys2⟩ :=
    handler_allOk f2 now2 ⟨applyAll f1 now1 (scanItems t) t.items, t.pageLimit⟩
      hkeys1
  have hsc : (scanItems ⟨applyAll f1 now1 (scanItems t) t.items, t.pageLimit⟩).length
      = (scanItems t).length :=
    scanItems_length_congr ⟨applyAll f1 now1 (scanItems t) t.items, t.pageLimit⟩ t
      hlen1 rfl
  rw [hsc] at h2
  exact ⟨applyAll f1 now1 (scanItems t) t.items,
    applyAll f2 now2 (scanItems ⟨applyAll f1 now1 (scanItems t) t.items, t.pageLimit⟩)
      (applyAll f1 now1 (scanItems t) t.items),
    h1, h2, hframe1, hframe2, hlen1, hlen2⟩

/-- C9 witness: a concrete one-goal store run twice with two different
generator stubs. -/
theorem run_twice_same_count_witness :
    ∃ items1 items2 : List Item,
      handler (fun p => .ok ((fun _ => "x") p)) "Ta" ⟨[gA], none⟩ =
        .ok ⟨items1, none⟩ (summaryDict (scanItems ⟨[gA], none⟩).length) ∧
      handler (fun p => .ok ((fun _ => "y") p)) "Tb" ⟨items1, none⟩ =
        .ok ⟨items2, none⟩ (summaryDict (scanItems ⟨[gA], none⟩).length) ∧
      itemsFrame [gA] items1 ∧ itemsFrame items1 items2 ∧
      items1.length = ([gA] : List Item).length ∧ items2.length = items1.length :=
  run_twice_same_count (fun _ => "x") (fun _ => "y") "Ta" "Tb" ⟨[gA], none⟩
    (by decide)

/-- C10: whenever the handler returns normally (rather than raising),
the returned dict is exactly `summaryDict N` with N the full length of
the list the scan call returned, and its `statusCode` entry is 200 —
the handler as written never reports a partial success. -/
theorem handler_return_full_count (gen : String → Except String String)
    (now : String) (t t' : Table) (ret : List (String × RetVal))
    (h : handler gen now t = .ok t' ret) :
    ret.lookup "statusCode" = some (RetVal.n 200) ∧
    ret = summaryDict (scanItems t).length := by
  unfold handler at h
  cases hpg : processGoals gen now (scanItems t) t.items 0 with
  | done items n =>
    rw [hpg] at h
    have hcount :=
      processGoals_done_count gen now (scanItems t) t.items 0 items n hpg
    cases h
    refine ⟨rfl, ?_⟩
    rw [hcount, Nat.zero_add]
  | failed items e => rw [hpg] at h; cases h

/-- C10 witness: a concrete successful run whose returned dict reports
statusCode 200 and the full scanned count. -/
theorem handler_return_full_count_witness :
    (summaryDict 1).lookup "statusCode" = some (RetVal.n 200) ∧
    summaryDict 1 = summaryDict (scanItems ⟨[gA], none⟩).length :=
  handler_return_full_count (fun _ => .ok "m") "T6" ⟨[gA], none⟩
    ⟨[enrichItem gA "m" "T6"], none⟩ (summaryDict 1) rfl
